import Mathlib

/-
Shallow embedding of the WebSocket chat server bundled in
src/Frontend/src/App.tsx (the server part: the `rooms` and `roomMetadata`
registries, the `create-room`, `join-room` and `chat-message` handlers, the
`close` handler and the periodic expiry sweep).

Modelling choices, each from the source:
  * Clients (sockets) are identified by `Nat`.  `socket.roomId` is the
    `boundRoom` field, `socket.readyState === WebSocket.OPEN` is the
    `isOpen` field.
  * `rooms` maps a room code to `Option (List Nat)`: `none` when the key is
    absent, `some l` for a JS `Set` whose elements in insertion order are
    `l`.  `Set.add` is `addClient` (append only when absent), `Set.delete`
    is `List.erase`.
  * `roomMetadata` maps a room code to `Option RoomMeta`; `Date` values are
    `Nat` millisecond timestamps, handlers that call `new Date()` take the
    current time as the extra argument `now`.
  * Each handler returns the new state together with the list of
    `(recipient, message)` sends it performs, in program order.
  * The generated room code of the no-custom-code `create-room` path comes
    from `Math.random()`; it is modelled as the extra argument `genCode`
    (the retry loop only constrains which code is produced, not what the
    handler then does with it).
-/

namespace ChatServer

/-- Per-room metadata: `created` and `lastActivity` timestamps (ms). -/
structure RoomMeta where
  created : Nat
  lastActivity : Nat
  deriving Repr, DecidableEq

/-- Messages the server sends to a client, one constructor per
`JSON.stringify({type: ...})` shape in the source. -/
inductive OutMsg where
  | roomCreated (roomId : String) (userCount : Nat)
  | joinedRoom (roomId : String)
  | userCountUpdate (userCount : Nat)
  | chatMessage (content : String) (sender : String) (isOwnMessage : Bool)
  | errorMsg (message : String)
  deriving Repr, DecidableEq

/-- One delivery: the recipient client and the message sent to it. -/
abbrev Event := Nat × OutMsg

/-- The server's mutable globals plus the per-socket fields. -/
structure ServerState where
  rooms : String → Option (List Nat)
  roomMetadata : String → Option RoomMeta
  boundRoom : Nat → Option String
  isOpen : Nat → Bool

/-- Server start: no rooms, no metadata, no socket bound, sockets open. -/
def initialState : ServerState where
  rooms := fun _ => none
  roomMetadata := fun _ => none
  boundRoom := fun _ => none
  isOpen := fun _ => true

/-- JS `toUpperCase()` on room codes, as `Char.toUpper` on each character
(the codes are ASCII letters and digits).  Core `String.toUpper` computes
the same string but by well-founded recursion; mapping over the character
list keeps it kernel-reducible. -/
def toUpper (str : String) : String :=
  String.mk (str.data.map Char.toUpper)

/-- JS `Set.add`: append the client only when it is not already present. -/
def addClient (l : List Nat) (c : Nat) : List Nat :=
  if c ∈ l then l else l ++ [c]

/-- The `create-room` case.  A custom code (a nonempty string, JS
truthiness) is uppercased and used as-is; otherwise the generated code
`genCode` is used.  The membership set is created when absent, the metadata
entry is overwritten with fresh timestamps, the socket is added and bound,
and `room-created` with the new size is sent to the socket when open. -/
def createRoom (s : ServerState) (sock : Nat) (customRoomId : Option String)
    (genCode : String) (now : Nat) : ServerState × List Event :=
  let newRoomId :=
    match customRoomId with
    | some c => if c = "" then genCode else toUpper c
    | none => genCode
  let members2 := addClient ((s.rooms newRoomId).getD []) sock
  let s2 : ServerState :=
    { s with
      rooms := fun k => if k = newRoomId then some members2 else s.rooms k,
      roomMetadata := fun k =>
        if k = newRoomId then some { created := now, lastActivity := now }
        else s.roomMetadata k,
      boundRoom := fun c => if c = sock then some newRoomId else s.boundRoom c }
  let events :=
    if s.isOpen sock then [(sock, OutMsg.roomCreated newRoomId members2.length)] else []
  (s2, events)

/-- The `join-room` case.  An empty code (JS falsiness; non-strings are not
representable here) is rejected with `Invalid room code`.  Otherwise the
code is uppercased; when either a membership set or a metadata entry exists
the socket is added and bound, `lastActivity` is refreshed when metadata
exists, `joined-room` is acknowledged to the socket when open and every open
member (joiner included) is sent `user-count-update` with the new size; when
neither exists, `Room not found` goes to the socket alone. -/
def joinRoom (s : ServerState) (sock : Nat) (code : String) (now : Nat) :
    ServerState × List Event :=
  if code = "" then
    (s, if s.isOpen sock then [(sock, OutMsg.errorMsg "Invalid room code")] else [])
  else
    let upper := toUpper code
    if (s.rooms upper).isSome || (s.roomMetadata upper).isSome then
      let members2 := addClient ((s.rooms upper).getD []) sock
      let s2 : ServerState :=
        { s with
          rooms := fun k => if k = upper then some members2 else s.rooms k,
          roomMetadata := fun k =>
            if k = upper then (s.roomMetadata k).map (fun m => { m with lastActivity := now })
            else s.roomMetadata k,
          boundRoom := fun c => if c = sock then some upper else s.boundRoom c }
      let ack := if s.isOpen sock then [(sock, OutMsg.joinedRoom upper)] else []
      let updates :=
        (members2.filter (fun c => s.isOpen c)).map
          (fun c => (c, OutMsg.userCountUpdate members2.length))
      (s2, ack ++ updates)
    else
      (s, if s.isOpen sock then [(sock, OutMsg.errorMsg "Room not found")] else [])

/-- The `chat-message` case.  The target room is the uppercased `roomId`
field of the message; when its membership set exists (even empty — a JS
`Set` object is truthy) every open member is sent the chat event flagged
`isOwnMessage = (client === socket)`, and nothing else changes; when the set
is absent, `Room not found` goes to the sender alone.  `roomMetadata` is
never touched here. -/
def chatMessage (s : ServerState) (sock : Nat) (roomId content sender : String) :
    ServerState × List Event :=
  let upper := toUpper roomId
  match s.rooms upper with
  | some members =>
      (s, (members.filter (fun c => s.isOpen c)).map
        (fun c => (c, OutMsg.chatMessage content sender (c == sock))))
  | none =>
      (s, if s.isOpen sock then [(sock, OutMsg.errorMsg "Room not found")] else [])

/-- The socket `close` handler.  The socket becomes non-open; when it is
bound to a room whose membership set exists it is deleted from that set, and
when members remain each open one is sent `user-count-update` with the new
size; an emptied room is kept (its metadata is never touched here). -/
def closeConn (s : ServerState) (sock : Nat) : ServerState × List Event :=
  let s0 : ServerState :=
    { s with isOpen := fun c => if c = sock then false else s.isOpen c }
  match s.boundRoom sock with
  | some rid =>
      match s0.rooms rid with
      | some members =>
          let members2 := members.erase sock
          let s2 : ServerState :=
            { s0 with rooms := fun k => if k = rid then some members2 else s0.rooms k }
          if 0 < members2.length then
            (s2, (members2.filter (fun c => s2.isOpen c)).map
              (fun c => (c, OutMsg.userCountUpdate members2.length)))
          else
            (s2, [])
      | none => (s0, [])
  | none => (s0, [])

/-- Inactivity threshold of the expiry sweep: `10 * 60 * 1000` ms. -/
def expireTime : Int := 10 * 60 * 1000

/-- Whether one pass of the sweep deletes room `rid`: it has a metadata
entry, its membership set is absent or empty, and strictly more than
`expireTime` ms have passed since `lastActivity`. -/
def sweepDeletes (s : ServerState) (now : Nat) (rid : String) : Bool :=
  match s.roomMetadata rid with
  | some m =>
      (match s.rooms rid with
       | none => true
       | some l => l.isEmpty)
      && decide ((now : Int) - (m.lastActivity : Int) > expireTime)
  | none => false

/-- One pass of the `setInterval` cleanup: every metadata key that
`sweepDeletes` selects loses both its metadata entry and its (empty or
absent) membership set; everything else is untouched. -/
def sweep (s : ServerState) (now : Nat) : ServerState :=
  { s with
    roomMetadata := fun k => if sweepDeletes s now k then none else s.roomMetadata k,
    rooms := fun k => if sweepDeletes s now k then none else s.rooms k }

/-- One externally triggered server step, used to quantify over reachable
states. -/
inductive Op where
  | create (sock : Nat) (customRoomId : Option String) (genCode : String) (now : Nat)
  | join (sock : Nat) (code : String) (now : Nat)
  | chat (sock : Nat) (roomId content sender : String)
  | close (sock : Nat)
  | sweepOp (now : Nat)

/-- Apply one step to the state (the sends are not needed for reachability). -/
def applyOp (op : Op) (s : ServerState) : ServerState :=
  match op with
  | .create sock c g now => (createRoom s sock c g now).1
  | .join sock code now => (joinRoom s sock code now).1
  | .chat sock roomId content sender => (chatMessage s sock roomId content sender).1
  | .close sock => (closeConn s sock).1
  | .sweepOp now => sweep s now

/-- Run a list of steps from a given state. -/
def runFrom (s : ServerState) (ops : List Op) : ServerState :=
  ops.foldl (fun s op => applyOp op s) s

/-- Run a list of steps from server start. -/
def run (ops : List Op) : ServerState :=
  runFrom initialState ops

/-- Every membership set is duplicate-free. -/
def RoomsNodup (s : ServerState) : Prop :=
  ∀ code l, s.rooms code = some l → l.Nodup

theorem mem_addClient_self (l : List Nat) (c : Nat) : c ∈ addClient l c := by
  unfold addClient
  split <;> simp_all

theorem mem_addClient_of_mem {l : List Nat} {a : Nat} (c : Nat) (h : a ∈ l) :
    a ∈ addClient l c := by
  unfold addClient
  split <;> simp_all

theorem nodup_addClient {l : List Nat} (c : Nat) (h : l.Nodup) :
    (addClient l c).Nodup := by
  unfold addClient
  split <;> simp_all [List.nodup_append]

theorem roomsNodup_getD {s : ServerState} (h : RoomsNodup s) (code : String) :
    ((s.rooms code).getD []).Nodup := by
  cases hc : s.rooms code with
  | none => simp
  | some l => simpa using h code l hc

theorem roomsNodup_applyOp (op : Op) (s : ServerState) (h : RoomsNodup s) :
    RoomsNodup (applyOp op s) := by
  cases op with
  | create sock c g now =>
      intro code l hl
      simp only [applyOp, createRoom] at hl
      split at hl
      · cases hl
        exact nodup_addClient _ (roomsNodup_getD h _)
      · exact h _ _ hl
  | join sock code2 now =>
      intro code l hl
      simp only [applyOp, joinRoom] at hl
      split at hl
      · exact h _ _ hl
      · split at hl
        · simp only at hl
          split at hl
          · cases hl
            exact nodup_addClient _ (roomsNodup_getD h _)
          · exact h _ _ hl
        · exact h _ _ hl
  | chat sock roomId content sender =>
      intro code l hl
      simp only [applyOp, chatMessage] at hl
      split at hl <;> exact h _ _ hl
  | close sock =>
      intro code l hl
      simp only [applyOp, closeConn] at hl
      split at hl
      · split at hl
        · split at hl <;>
          · simp only at hl
            split at hl
            · cases hl
              exact List.Nodup.erase _ (h _ _ (by assumption))
            · exact h _ _ hl
        · exact h _ _ hl
      · exact h _ _ hl
  | sweepOp now =>
      intro code l hl
      simp only [applyOp, sweep] at hl
      split at hl
      · cases hl
      · exact h _ _ hl

theorem roomsNodup_runFrom (ops : List Op) (s : ServerState) (h : RoomsNodup s) :
    RoomsNodup (runFrom s ops) := by
  induction ops generalizing s with
  | nil => exact h
  | cons op ops ih => exact ih _ (roomsNodup_applyOp op s h)

/-- Claim C1 as stated is false at a concrete input: after connection 0
runs create-room "AAAAAA" and then create-room "BBBBBB", it is in the
membership sets of both room codes at once — create-room does not remove
the connection from the previously bound room. -/
theorem C1_counterexample :
    0 ∈ ((run [Op.create 0 (some "AAAAAA") "" 0,
               Op.create 0 (some "BBBBBB") "" 1]).rooms "AAAAAA").getD [] ∧
    0 ∈ ((run [Op.create 0 (some "AAAAAA") "" 0,
               Op.create 0 (some "BBBBBB") "" 1]).rooms "BBBBBB").getD [] ∧
    "AAAAAA" ≠ "BBBBBB" := by decide

/-- Claim C1 (amended): in every state reachable by create-room, join-room,
chat-message, close and sweep steps, each connection appears at most once in
any single room's membership set (every membership set is duplicate-free);
create-room and join-room do not remove the connection from a previously
bound room, so a connection may belong to several rooms' membership sets at
once. -/
theorem C1_membership_at_most_once_per_room (ops : List Op) (code : String)
    (l : List Nat) (h : (run ops).rooms code = some l) : l.Nodup :=
  roomsNodup_runFrom ops initialState (fun _ _ hl => by simp [initialState] at hl)
    code l h

/-- Witness for C1_membership_at_most_once_per_room at a concrete run. -/
theorem C1_membership_at_most_once_per_room_witness :
    (run [Op.create 0 (some "AAAAAA") "" 0]).rooms "AAAAAA" = some [0] ∧
    List.Nodup [0] :=
  ⟨by decide,
   C1_membership_at_most_once_per_room [Op.create 0 (some "AAAAAA") "" 0]
     "AAAAAA" [0] (by decide)⟩

/-- Claim C2 as stated is false at a concrete input: connection 0 creates
room "AAAAAA" at time 0 and then sends a chat message that is successfully
delivered (the broadcast reaches member 0), yet the room's metadata still
reads lastActivity = 0 — the chat-message handler never refreshes it. -/
theorem C2_counterexample :
    (chatMessage (run [Op.create 0 (some "AAAAAA") "" 0]) 0 "AAAAAA" "hi" "Alice").2
        = [(0, OutMsg.chatMessage "hi" "Alice" true)] ∧
    (chatMessage (run [Op.create 0 (some "AAAAAA") "" 0]) 0 "AAAAAA" "hi" "Alice").1.roomMetadata
        "AAAAAA" = some { created := 0, lastActivity := 0 } := by decide

/-- Claim C2 (amended): a chat-message delivery, successful or not, leaves
the entire registry state — membership sets, every room's lastActivity
metadata, and socket bindings — unchanged; no activity refresh happens on
chat delivery. -/
theorem C2_chat_preserves_state (s : ServerState) (sock : Nat)
    (roomId content sender : String) :
    (chatMessage s sock roomId content sender).1 = s := by
  unfold chatMessage
  cases h : s.rooms (toUpper roomId) <;> simp [h]

/-- Claim C3 as stated is false at a concrete input: connection 0 creates
"AAAAAA", connection 1 creates "BBBBBB", connection 0 joins "BBBBBB" (so its
bound room is "BBBBBB"); a chat message sent into room "AAAAAA" is still
delivered to connection 0, whose bound room differs from "AAAAAA", because
stale memberships are never cleaned up. -/
theorem C3_counterexample :
    (chatMessage (run [Op.create 0 (some "AAAAAA") "" 0,
                       Op.create 1 (some "BBBBBB") "" 1,
                       Op.join 0 "BBBBBB" 2]) 1 "AAAAAA" "hi" "Eve").2
        = [(0, OutMsg.chatMessage "hi" "Eve" false)] ∧
    (run [Op.create 0 (some "AAAAAA") "" 0,
          Op.create 1 (some "BBBBBB") "" 1,
          Op.join 0 "BBBBBB" 2]).boundRoom 0 = some "BBBBBB" ∧
    "BBBBBB" ≠ "AAAAAA" := by decide

/-- Claim C3 (amended): recipients of a chat-message broadcast into room A
are drawn only from room A's membership set — a connection outside that set
never receives the event; however, a connection whose bound room is B ≠ A
can still sit in A's membership set and then does receive it. -/
theorem C3_recipients_only_from_membership (s : ServerState) (sock : Nat)
    (roomId content sender : String) (c : Nat) (content2 sender2 : String)
    (flag : Bool)
    (h : (c, OutMsg.chatMessage content2 sender2 flag)
          ∈ (chatMessage s sock roomId content sender).2) :
    ∃ l, s.rooms (toUpper roomId) = some l ∧ c ∈ l := by
  cases hr : s.rooms (toUpper roomId) with
  | none =>
      simp only [chatMessage, hr] at h
      split at h <;> simp_all
  | some members =>
      simp only [chatMessage, hr, List.mem_map, List.mem_filter] at h
      obtain ⟨c2, ⟨hc2, _⟩, heq⟩ := h
      exact ⟨members, rfl, by cases heq; exact hc2⟩

/-- Witness for C3_recipients_only_from_membership at a concrete input. -/
theorem C3_recipients_only_from_membership_witness :
    ((0, OutMsg.chatMessage "hi" "Eve" false)
        ∈ (chatMessage (run [Op.create 0 (some "AAAAAA") "" 0]) 1 "AAAAAA" "hi" "Eve").2) ∧
    ∃ l, (run [Op.create 0 (some "AAAAAA") "" 0]).rooms (toUpper "AAAAAA")
          = some l ∧ 0 ∈ l :=
  ⟨by decide,
   C3_recipients_only_from_membership (run [Op.create 0 (some "AAAAAA") "" 0])
     1 "AAAAAA" "hi" "Eve" 0 "hi" "Eve" false (by decide)⟩

/-- Claim C4: when the sender is a member of the target room (the case the
spec describes: delivery goes to every member, the sender included) and its
socket is open, exactly one delivered chat event carries isOwnMessage =
true, and an event reaches a recipient with flag true exactly when that
recipient is the sender; every other recipient gets false. -/
theorem C4_self_flag_unique (s : ServerState) (sock : Nat)
    (roomId content sender : String) (l : List Nat)
    (hl : s.rooms (toUpper roomId) = some l) (hnd : l.Nodup)
    (hmem : sock ∈ l) (hopen : s.isOpen sock = true) :
    ((chatMessage s sock roomId content sender).2.countP
        (fun e => e.2 == OutMsg.chatMessage content sender true)) = 1 ∧
    (∀ c flag, (c, OutMsg.chatMessage content sender flag)
        ∈ (chatMessage s sock roomId content sender).2 → (flag = true ↔ c = sock)) := by
  constructor
  · simp only [chatMessage, hl, List.countP_map]
    have hfun : ((fun e : Event => e.2 == OutMsg.chatMessage content sender true) ∘
        fun c => ((c, OutMsg.chatMessage content sender (c == sock)) : Event))
        = fun c => c == sock := by
      funext c
      by_cases hc : c = sock <;> simp [hc]
    rw [hfun]
    have hcount := List.count_eq_one_of_mem (hnd.filter (fun c => s.isOpen c))
      (List.mem_filter.2 ⟨hmem, hopen⟩)
    exact hcount
  · intro c flag hmemE
    simp only [chatMessage, hl, List.mem_map, List.mem_filter, Prod.mk.injEq,
      OutMsg.chatMessage.injEq] at hmemE
    obtain ⟨c2, ⟨_, _⟩, hc2, _, _, hflag⟩ := hmemE
    subst hc2
    subst hflag
    simp

/-- Witness for C4_self_flag_unique at a concrete input. -/
theorem C4_self_flag_unique_witness :
    (run [Op.create 0 (some "AB12CD") "" 0, Op.join 1 "ab12cd" 5]).rooms
        (toUpper "AB12CD") = some [0, 1] ∧
    ((chatMessage (run [Op.create 0 (some "AB12CD") "" 0, Op.join 1 "ab12cd" 5])
        0 "AB12CD" "hi" "Alice").2.countP
          (fun e => e.2 == OutMsg.chatMessage "hi" "Alice" true)) = 1 :=
  ⟨by decide,
   (C4_self_flag_unique (run [Op.create 0 (some "AB12CD") "" 0, Op.join 1 "ab12cd" 5])
     0 "AB12CD" "hi" "Alice" [0, 1] (by decide) (by decide) (by decide) (by decide)).1⟩

/-- Claim C5: join-room canonicalizes the code to uppercase; for a nonempty
code it fails — leaving the state unchanged and sending "Room not found" to
the joiner alone (when its socket is open) — exactly when neither a
membership set nor a metadata entry exists under the canonical code;
otherwise it adds the connection to the room's membership set, binds it to
the room, acknowledges joined-room to the open joiner, and emits no
"Room not found" error. -/
theorem C5_join_not_found_iff (s : ServerState) (sock : Nat) (code : String)
    (now : Nat) (hc : code ≠ "") :
    ((s.rooms (toUpper code) = none ∧ s.roomMetadata (toUpper code) = none) →
      (joinRoom s sock code now).1 = s ∧
      (joinRoom s sock code now).2
        = if s.isOpen sock then [(sock, OutMsg.errorMsg "Room not found")] else []) ∧
    (((s.rooms (toUpper code)).isSome || (s.roomMetadata (toUpper code)).isSome) = true →
      sock ∈ ((joinRoom s sock code now).1.rooms (toUpper code)).getD [] ∧
      (joinRoom s sock code now).1.boundRoom sock = some (toUpper code) ∧
      (s.isOpen sock = true →
        (sock, OutMsg.joinedRoom (toUpper code)) ∈ (joinRoom s sock code now).2) ∧
      (∀ e ∈ (joinRoom s sock code now).2, e.2 ≠ OutMsg.errorMsg "Room not found")) := by
  constructor
  · rintro ⟨h1, h2⟩
    simp [joinRoom, if_neg hc, h1, h2]
  · intro hex
    simp only [joinRoom, if_neg hc, hex, if_true]
    refine ⟨?_, ?_, ?_, ?_⟩
    · simp [mem_addClient_self]
    · simp
    · intro ho
      simp [ho]
    · intro e he
      rcases List.mem_append.1 he with h | h
      · split at h <;> simp_all
      · simp only [List.mem_map] at h
        obtain ⟨c2, _, rfl⟩ := h
        simp

/-- Witness for C5_join_not_found_iff at a concrete input (success side,
with a lowercase code). -/
theorem C5_join_not_found_iff_witness :
    ("ab12cd" : String) ≠ "" ∧
    1 ∈ ((joinRoom (run [Op.create 0 (some "AB12CD") "" 0]) 1 "ab12cd" 5).1.rooms
        (toUpper "ab12cd")).getD [] :=
  ⟨by decide,
   ((C5_join_not_found_iff (run [Op.create 0 (some "AB12CD") "" 0]) 1 "ab12cd" 5
      (by decide)).2 (by decide)).1⟩

/-- Claim C6: creating a room twice with the same explicit code yields a
single room — both callers are members of the one membership set under the
canonical code, no other room's membership set is touched, and the second
caller's room-created response reports the total size of that set. -/
theorem C6_create_twice_one_room (s : ServerState) (sock1 sock2 : Nat)
    (c g1 g2 : String) (now1 now2 : Nat) (hc : c ≠ "") :
    sock1 ∈ (((createRoom (createRoom s sock1 (some c) g1 now1).1 sock2 (some c) g2
        now2).1.rooms (toUpper c)).getD []) ∧
    sock2 ∈ (((createRoom (createRoom s sock1 (some c) g1 now1).1 sock2 (some c) g2
        now2).1.rooms (toUpper c)).getD []) ∧
    (∀ k, k ≠ toUpper c →
      (createRoom (createRoom s sock1 (some c) g1 now1).1 sock2 (some c) g2 now2).1.rooms k
        = s.rooms k) ∧
    (s.isOpen sock2 = true →
      (createRoom (createRoom s sock1 (some c) g1 now1).1 sock2 (some c) g2 now2).2
        = [(sock2, OutMsg.roomCreated (toUpper c)
            ((((createRoom (createRoom s sock1 (some c) g1 now1).1 sock2 (some c) g2
                now2).1.rooms (toUpper c)).getD []).length))]) := by
  refine ⟨?_, ?_, ?_, ?_⟩
  · simp only [createRoom, if_neg hc]
    simp [mem_addClient_of_mem _ (mem_addClient_self _ _)]
  · simp only [createRoom, if_neg hc]
    simp [mem_addClient_self]
  · intro k hk
    simp only [createRoom, if_neg hc]
    simp [hk]
  · intro ho
    simp only [createRoom, if_neg hc]
    simp [ho]

/-- Witness for C6_create_twice_one_room at a concrete input. -/
theorem C6_create_twice_one_room_witness :
    ("ab12cd" : String) ≠ "" ∧
    0 ∈ (((createRoom (createRoom initialState 0 (some "ab12cd") "" 1).1 1
        (some "ab12cd") "" 2).1.rooms (toUpper "ab12cd")).getD []) :=
  ⟨by decide,
   (C6_create_twice_one_room initialState 0 1 "ab12cd" "" "" 1 2 (by decide)).1⟩

/-- Claim C7: a successful join-room adds the joiner to the room's
membership set and sends user-count-update, carrying the fresh member
count, to every open member of the updated set — the joiner included. -/
theorem C7_join_success_broadcast (s : ServerState) (sock : Nat) (code : String)
    (now : Nat) (hc : code ≠ "")
    (hex : ((s.rooms (toUpper code)).isSome || (s.roomMetadata (toUpper code)).isSome)
      = true) :
    sock ∈ addClient ((s.rooms (toUpper code)).getD []) sock ∧
    (joinRoom s sock code now).1.rooms (toUpper code)
      = some (addClient ((s.rooms (toUpper code)).getD []) sock) ∧
    (∀ c, c ∈ addClient ((s.rooms (toUpper code)).getD []) sock → s.isOpen c = true →
      (c, OutMsg.userCountUpdate (addClient ((s.rooms (toUpper code)).getD []) sock).length)
        ∈ (joinRoom s sock code now).2) := by
  refine ⟨mem_addClient_self _ _, ?_, ?_⟩
  · simp only [joinRoom, if_neg hc, hex, if_true]
  · intro c hcm ho
    simp only [joinRoom, if_neg hc, hex, if_true]
    refine List.mem_append.2 (Or.inr ?_)
    exact List.mem_map.2 ⟨c, List.mem_filter.2 ⟨hcm, ho⟩, rfl⟩

/-- Witness for C7_join_success_broadcast: after X creates "AB12CD" and Y
joins with the lowercase "ab12cd", both X and Y receive
user-count-update with userCount = 2. -/
theorem C7_join_success_broadcast_witness :
    ((0, OutMsg.userCountUpdate 2)
        ∈ (joinRoom (run [Op.create 0 (some "AB12CD") "" 0]) 1 "ab12cd" 5).2) ∧
    ((1, OutMsg.userCountUpdate 2)
        ∈ (joinRoom (run [Op.create 0 (some "AB12CD") "" 0]) 1 "ab12cd" 5).2) :=
  ⟨(C7_join_success_broadcast (run [Op.create 0 (some "AB12CD") "" 0]) 1 "ab12cd" 5
      (by decide) (by decide)).2.2 0 (by decide) (by decide),
   (C7_join_success_broadcast (run [Op.create 0 (some "AB12CD") "" 0]) 1 "ab12cd" 5
      (by decide) (by decide)).2.2 1 (by decide) (by decide)⟩

/-- Claim C8: when a closing socket is bound to a room whose membership set
exists, the socket is deleted from that set; room metadata is retained
completely unchanged; when members remain, each open one gets
user-count-update with the new size, and when none remain no event is sent;
and a later join-room on the (canonical) code still succeeds, binding the
new joiner to the room. -/
theorem C8_close_leave (s : ServerState) (sock : Nat) (rid : String) (l : List Nat)
    (hb : s.boundRoom sock = some rid) (hr : s.rooms rid = some l) :
    (closeConn s sock).1.rooms rid = some (l.erase sock) ∧
    (closeConn s sock).1.roomMetadata = s.roomMetadata ∧
    (l.Nodup → sock ∉ l.erase sock) ∧
    (0 < (l.erase sock).length →
      (closeConn s sock).2
        = ((l.erase sock).filter (fun c => (closeConn s sock).1.isOpen c)).map
            (fun c => (c, OutMsg.userCountUpdate (l.erase sock).length))) ∧
    ((l.erase sock).length = 0 → (closeConn s sock).2 = []) ∧
    (∀ sock2 now2, rid ≠ "" → toUpper rid = rid →
      (joinRoom (closeConn s sock).1 sock2 rid now2).1.boundRoom sock2 = some rid) := by
  refine ⟨?_, ?_, ?_, ?_, ?_, ?_⟩
  · simp only [closeConn, hb, hr]
    split <;> simp
  · simp only [closeConn, hb, hr]
    split <;> rfl
  · intro hnd
    exact hnd.not_mem_erase
  · intro hpos
    simp only [closeConn, hb, hr]
    rw [if_pos hpos]
  · intro hzero
    simp only [closeConn, hb, hr]
    rw [if_neg (by omega)]
  · intro sock2 now2 hrid hupper
    have hrooms : (closeConn s sock).1.rooms rid = some (l.erase sock) := by
      simp only [closeConn, hb, hr]
      split <;> simp
    simp only [joinRoom, if_neg hrid, hupper, hrooms]
    simp

/-- Witness for C8_close_leave at a concrete input. -/
theorem C8_close_leave_witness :
    (run [Op.create 0 (some "AB12CD") "" 0, Op.join 1 "ab12cd" 5]).boundRoom 1
        = some "AB12CD" ∧
    (closeConn (run [Op.create 0 (some "AB12CD") "" 0, Op.join 1 "ab12cd" 5]) 1).1.rooms
        "AB12CD" = some ([0, 1].erase 1) :=
  ⟨by decide,
   (C8_close_leave (run [Op.create 0 (some "AB12CD") "" 0, Op.join 1 "ab12cd" 5])
     1 "AB12CD" [0, 1] (by decide) (by decide)).1⟩

/-- Claim C9: a sweep pass deletes a room's metadata entry exactly when its
membership set is absent or empty and strictly more than the expiry
threshold has elapsed since lastActivity; whenever the metadata entry is
deleted the membership set is deleted too; and a room with at least one
member keeps both its membership set and its metadata, regardless of
elapsed time. -/
theorem C9_sweep_exactness (s : ServerState) (now : Nat) (rid : String)
    (m : RoomMeta) (hm : s.roomMetadata rid = some m) :
    ((sweep s now).roomMetadata rid = none ↔
      ((s.rooms rid = none ∨ s.rooms rid = some []) ∧
        (now : Int) - (m.lastActivity : Int) > expireTime)) ∧
    ((sweep s now).roomMetadata rid = none → (sweep s now).rooms rid = none) ∧
    (∀ l, s.rooms rid = some l → l ≠ [] →
      (sweep s now).rooms rid = some l ∧ (sweep s now).roomMetadata rid = some m) := by
  refine ⟨?_, ?_, ?_⟩
  · simp only [sweep, sweepDeletes, hm]
    cases hr : s.rooms rid with
    | none => by_cases ht : (now : Int) - (m.lastActivity : Int) > expireTime <;> simp [ht]
    | some l =>
        by_cases ht : (now : Int) - (m.lastActivity : Int) > expireTime <;>
          cases l <;> simp [ht]
  · intro hdel
    simp only [sweep] at hdel ⊢
    split at hdel
    · simp_all
    · simp_all [hm]
  · intro l hl hne
    have hdel : sweepDeletes s now rid = false := by
      simp only [sweepDeletes, hm, hl]
      cases l with
      | nil => simp_all
      | cons a t => simp
    simp [sweep, hdel, hl, hm]

/-- Witness for C9_sweep_exactness: room "AB12CD" created at time 0 and
emptied by its creator closing is deleted by a sweep strictly after the
threshold. -/
theorem C9_sweep_exactness_witness :
    (run [Op.create 0 (some "AB12CD") "" 0, Op.close 0]).roomMetadata "AB12CD"
        = some { created := 0, lastActivity := 0 } ∧
    ((sweep (run [Op.create 0 (some "AB12CD") "" 0, Op.close 0]) 600001).roomMetadata
        "AB12CD" = none ↔
      (((run [Op.create 0 (some "AB12CD") "" 0, Op.close 0]).rooms "AB12CD" = none ∨
        (run [Op.create 0 (some "AB12CD") "" 0, Op.close 0]).rooms "AB12CD" = some []) ∧
        ((600001 : Nat) : Int) - (({ created := 0, lastActivity := 0 } : RoomMeta).lastActivity : Int)
          > expireTime)) :=
  ⟨by decide,
   (C9_sweep_exactness (run [Op.create 0 (some "AB12CD") "" 0, Op.close 0]) 600001
     "AB12CD" { created := 0, lastActivity := 0 } (by decide)).1⟩

/-- Claim C10: chat routing is keyed solely by the message's roomId field:
when the target room's membership set exists and the sender is not in it,
the broadcast still reaches every open member of that set, and every
delivered event carries isOwnMessage = false. -/
theorem C10_routing_by_roomid (s : ServerState) (sock : Nat)
    (roomId content sender : String) (l : List Nat)
    (hl : s.rooms (toUpper roomId) = some l) (hns : sock ∉ l) :
    (chatMessage s sock roomId content sender).2
      = (l.filter (fun c => s.isOpen c)).map
          (fun c => (c, OutMsg.chatMessage content sender false)) := by
  simp only [chatMessage, hl]
  refine List.map_congr_left ?_
  intro c hcf
  have hcl : c ∈ l := (List.mem_filter.1 hcf).1
  have : (c == sock) = false := by
    simp only [beq_eq_false_iff_ne, ne_eq]
    rintro rfl
    exact hns hcl
  rw [this]

/-- Witness for C10_routing_by_roomid: connection 0, not a member of
"AAAAAA", sends into it; member 1 still receives the event, flagged false. -/
theorem C10_routing_by_roomid_witness :
    (run [Op.create 1 (some "AAAAAA") "" 0]).rooms (toUpper "AAAAAA") = some [1] ∧
    (chatMessage (run [Op.create 1 (some "AAAAAA") "" 0]) 0 "AAAAAA" "hi" "Eve").2
      = ([1].filter (fun c => (run [Op.create 1 (some "AAAAAA") "" 0]).isOpen c)).map
          (fun c => (c, OutMsg.chatMessage "hi" "Eve" false)) :=
  ⟨by decide,
   C10_routing_by_roomid (run [Op.create 1 (some "AAAAAA") "" 0]) 0 "AAAAAA" "hi" "Eve"
     [1] (by decide) (by decide)⟩

end ChatServer
